import Mathlib

/-!
# Verification of the `rollbar` Go reporter (stvp/rollbar)

Shallow embedding of the reporter's pure core: path normalization for stack
frames, the adler32 checksum used for error-class labels (and, per the spec,
for stack fingerprints), sensitive-field redaction of request parameters,
report construction, and the bounded delivery queue with its background
worker, modelled as explicit state passing.

Strings are handled through their underlying character lists; Go byte slices
obtained from strings are modelled by UTF-8 encoding the characters.
-/

namespace Rollbar

/-! Section: String search primitives (Go `strings.Index`, `strings.TrimPrefix`) -/

/-- Index of the first occurrence of `pat` in `s` (`strings.Index`), as an
option instead of Go's `-1` sentinel. The empty pattern matches at `0`. -/
def firstIdx (pat : List Char) : List Char → Option Nat
  | [] => if pat.isPrefixOf ([] : List Char) then some 0 else none
  | c :: rest =>
    if pat.isPrefixOf (c :: rest) then some 0
    else (firstIdx pat rest).map (· + 1)

/-- Go `strings.TrimPrefix`: drop `pre` from the front of `s` when it is a
prefix, otherwise return `s` unchanged. -/
def trimPrefix (pre : String) (s : String) : String :=
  if pre.data.isPrefixOf s.data then String.mk (s.data.drop pre.data.length) else s

/-! Section: Stack frames and path normalization (`shortenFilePath`) -/

/-- Frame is a single line of executed code in a Stack. -/
structure Frame where
  filename : String
  method : String
  line : Int
deriving DecidableEq, Repr

/-- The hosting-prefix markers recognized by `shortenFilePath`
(`knownFilePathPatterns`), in source order. -/
def knownFilePathPatterns : List (List Char) :=
  ["github.com/".data, "code.google.com/".data, "bitbucket.org/".data,
   "launchpad.net/".data]

/-- The `for _, pattern := range knownFilePathPatterns` loop body of
`shortenFilePath`: return the suffix of `s` from the first occurrence of the
first listed pattern that occurs in `s`, or `s` when none occurs. -/
def patternLoop : List (List Char) → List Char → List Char
  | [], s => s
  | p :: ps, s =>
    match firstIdx p s with
    | some idx => s.drop idx
    | none => patternLoop ps s

/-- The body of `shortenFilePath` on the character list: if `"/src/pkg/"` occurs, keep the
suffix from `idx+5` (so from `"pkg/"` onward); otherwise try the hosting
patterns; otherwise return the input unchanged. -/
def shortenList (s : List Char) : List Char :=
  match firstIdx "/src/pkg/".data s with
  | some idx => s.drop (idx + 5)
  | none => patternLoop knownFilePathPatterns s

/-- Remove un-needed information from the source file path
(`shortenFilePath` in the stack walker). -/
def shortenFilePath (s : String) : String :=
  String.mk (shortenList s.data)

/-! Section: Bytes, adler32 and hexadecimal rendering -/

/-- UTF-8 encoding of a single character, each byte as a `Nat`. Models Go's
`[]byte(s)` conversion from a string. -/
def utf8Bytes (c : Char) : List Nat :=
  let n := c.toNat
  if n < 0x80 then [n]
  else if n < 0x800 then [0xC0 + n / 64, 0x80 + n % 64]
  else if n < 0x10000 then
    [0xE0 + n / 4096, 0x80 + n / 64 % 64, 0x80 + n % 64]
  else
    [0xF0 + n / 262144, 0x80 + n / 4096 % 64, 0x80 + n / 64 % 64,
     0x80 + n % 64]

/-- The bytes of a Go string (`[]byte(s)`). -/
def strBytes (s : String) : List Nat :=
  s.data.flatMap utf8Bytes

/-- The `hash/adler32` checksum: running sums `a` (from 1) and `b` (from 0) over the
bytes, both modulo 65521; the checksum is `b * 65536 + a`. -/
def adler32 (bytes : List Nat) : Nat :=
  let p := bytes.foldl
    (fun (ab : Nat × Nat) byte =>
      ((ab.1 + byte) % 65521, (ab.2 + ab.1 + byte) % 65521))
    (1, 0)
  p.2 * 65536 + p.1

/-- Lowercase minimal-width hexadecimal rendering of a natural number, as
produced by Go's `fmt` verb `%x` on an unsigned integer. -/
def hexStr (n : Nat) : String :=
  String.mk (Nat.toDigits 16 n)

/-! Section: Go errors and `errorClass` -/

/-- A Go `error` value as the reporter observes it: its dynamic type name
(`reflect.TypeOf(err).String()`) and its message (`err.Error()`).  A generic
error made by `errors.New` has type name `"*errors.errorString"`. -/
structure GoError where
  typeName : String
  message : String
deriving DecidableEq, Repr

/-- Function `errorClass`: `"panic"` for an empty type name, a braced lowercase-hex
adler32 checksum of the message for generic `*errors.errorString` values, and
otherwise the type name with a leading `"*"` stripped. -/
def errorClass (err : GoError) : String :=
  let class' := err.typeName
  if class' = "" then "panic"
  else if class' = "*errors.errorString" then
    "\x7b" ++ hexStr (adler32 (strBytes err.message)) ++ "\x7d"
  else trimPrefix "*" class'

/-! Section: Stack fingerprints

The `Stack.Fingerprint` method is called by `errorBody` but its definition is
not among the provided source files; it is modelled from the spec. -/

/-- The canonical representation of one frame fed to the fingerprint
checksum: filename + function + line. -/
def frameRepr (f : Frame) : String :=
  f.filename ++ f.method ++ toString f.line

/-- Modelled from the spec: the `Stack.Fingerprint` method (absent from the
provided sources) concatenates a canonical representation of every frame —
filename + function + line, in stack order — runs the result through the same
32-bit checksum algorithm used for error-class labels (adler32), and encodes
the checksum as a lowercase hexadecimal string. -/
def fingerprint (stack : List Frame) : String :=
  hexStr (adler32 (strBytes (String.join (stack.map frameRepr))))

/-! Section: Redaction (`FilterFields`, `filterParams`) -/

/-- The `FILTERED` placeholder constant. -/
def FILTERED : String := "[FILTERED]"

/-- Whether `pat` occurs as a substring of `s`, via `firstIdx`. -/
def containsSub (s pat : String) : Bool :=
  (firstIdx pat.data s.data).isSome

/-- The default `FilterFields` regular expression `password|secret|token`
applied by `Match`: the key matches when any of the three literal
alternatives occurs as a substring (Go regexps are case-sensitive unless the
pattern asks otherwise; this one does not). -/
def filterFieldsMatch (key : String) : Bool :=
  containsSub key "password" || containsSub key "secret" || containsSub key "token"

/-- First value sequence stored under `k`. -/
def lookupVals (k : String) : List (String × List String) → Option (List String)
  | [] => none
  | (k', vs) :: rest => if k' = k then some vs else lookupVals k rest

/-- Function `filterParams` filters sensitive information like passwords from being
sent to Rollbar: every key matched by `FilterFields` has its whole value
sequence replaced by `[FILTERED]`.  In Go this writes through the shared map
and returns it; here the returned list is the caller-visible mapping after
the call. -/
def filterParams (values : List (String × List String)) :
    List (String × List String) :=
  values.map fun kv => if filterFieldsMatch kv.1 then (kv.1, [FILTERED]) else kv

/-! Section: JSON values (Go `map[string]interface{}` payloads) -/

/-- The JSON-shaped values the reporter builds (`map[string]interface{}`
trees).  Objects are association lists; Go map iteration order is abstracted
away because every claim reads fields through `jget`. -/
inductive Json where
  | str : String → Json
  | num : Int → Json
  | arr : List Json → Json
  | obj : List (String × Json) → Json

/-- Value stored under `k` in an association-list object. -/
def objGet (k : String) : List (String × Json) → Option Json
  | [] => none
  | (k', v) :: rest => if k' = k then some v else objGet k rest

/-- Field read on a JSON object; `none` on other shapes. -/
def jget (j : Json) (k : String) : Option Json :=
  match j with
  | .obj kvs => objGet k kvs
  | _ => none

/-- The string held by an optional JSON value, when it is a string. -/
def jstr : Option Json → Option String
  | some (.str s) => some s
  | _ => none

/-- Chained field read starting from an optional object. -/
def jget' (j : Option Json) (k : String) : Option Json :=
  match j with
  | some v => jget v k
  | none => none

/-- Go map assignment `m[k] = v` on an association-list object: replace the
first binding of `k`, or append a fresh one. -/
def objSet (k : String) (v : Json) : List (String × Json) → List (String × Json)
  | [] => [(k, v)]
  | (k', v') :: rest =>
    if k' = k then (k, v) :: rest else (k', v') :: objSet k v rest

/-- Go expression `body["data"].(map[string]interface\x7b\x7d)` followed by `data[k] = v`: the
nested `"data"` map is shared, so the assignment is visible in `body`. -/
def dataSet (body : Json) (k : String) (v : Json) : Json :=
  match body with
  | .obj kvs =>
    .obj (kvs.map fun kv =>
      if kv.1 = "data" then
        (kv.1, match kv.2 with
               | .obj dkvs => Json.obj (objSet k v dkvs)
               | other => other)
      else kv)
  | other => other

/-! Section: Report construction (`buildBody`, `messageBody`, `errorBody`) -/

/-- Process-wide configuration and per-call environment reads: the mutable
globals `Token` and `Environment`, plus the values `buildBody` samples at
call time (`time.Now().Unix()`, `os.Hostname()`, `runtime.GOOS`). -/
structure Config where
  token : String
  environment : String
  timestamp : Int
  goos : String
  hostname : String
deriving Repr

def NAME : String := "go-rollbar"
def VERSION : String := "0.2.0"

/-- Build the main JSON structure that will be sent to Rollbar with the
appropriate metadata (`buildBody`).  `cfg.token` is the value of the `Token`
global read at this call. -/
def buildBody (cfg : Config) (level title : String) : Json :=
  .obj [("access_token", .str cfg.token),
        ("data", .obj
          [("environment", .str cfg.environment),
           ("title", .str title),
           ("level", .str level),
           ("timestamp", .num cfg.timestamp),
           ("platform", .str cfg.goos),
           ("language", .str "go"),
           ("server", .obj [("host", .str cfg.hostname)]),
           ("notifier", .obj [("name", .str NAME), ("version", .str VERSION)])])]

/-- Build a message inner-body for the given message string (`messageBody`). -/
def messageBody (s : String) : Json :=
  .obj [("message", .obj [("body", .str s)])]

/-- JSON form of a stack frame (`json:"filename" / "method" / "lineno"`). -/
def frameJson (f : Frame) : Json :=
  .obj [("filename", .str f.filename), ("method", .str f.method),
        ("lineno", .num f.line)]

/-- Build an error inner-body and fingerprint for the given error
(`errorBody`).  The stack captured by `BuildStack(3 + skip)` is a runtime
input here, passed in explicitly. -/
def errorBody (err : GoError) (stack : List Frame) : Json × String :=
  (.obj [("trace", .obj
      [("frames", .arr (stack.map frameJson)),
       ("exception", .obj
         [("class", .str (errorClass err)),
          ("message", .str err.message)])])],
   fingerprint stack)

/-! Section: Request capture (`errorRequest`, `flattenValues`) -/

/-- The parts of an `*http.Request` the reporter reads.  `query` stands for
the map returned by `r.URL.Query()`, which parses the raw query string afresh
on every call, so filtering that map is invisible to the caller; `form` is
the stored `r.Form` map, which the caller shares. -/
structure Request where
  url : String
  method : String
  headers : List (String × List String)
  query : List (String × List String)
  form : List (String × List String)

/-- Function `flattenValues`: collapse one-element value sequences to the scalar and
keep longer (or empty) ones as arrays. -/
def flattenValues (values : List (String × List String)) :
    List (String × Json) :=
  values.map fun kv =>
    match kv.2 with
    | [v] => (kv.1, Json.str v)
    | vs => (kv.1, Json.arr (vs.map Json.str))

/-- Go `url.Values.Encode` on the filtered query: `k=v` pairs joined by `&` with
keys in sorted order (percent-escaping is not modelled; no claim reads this
field). -/
def encodeQuery (values : List (String × List String)) : String :=
  String.intercalate "&"
    (((values.mergeSort fun a b => a.1 ≤ b.1).map
        fun kv => kv.2.map fun v => kv.1 ++ "=" ++ v).flatten)

/-- Extract error details from a Request to a format that Rollbar accepts
(`errorRequest`).  Returns the request JSON together with the caller-visible
request afterwards: `filterParams(r.Form)` writes through the shared `Form`
map, while the filtered query map was freshly parsed and stays private. -/
def errorRequest (r : Request) : Json × Request :=
  let cleanQuery := filterParams r.query
  (.obj [("url", .str r.url),
         ("method", .str r.method),
         ("headers", .obj (flattenValues r.headers)),
         ("query_string", .str (encodeQuery cleanQuery)),
         ("GET", .obj (flattenValues cleanQuery)),
         ("POST", .obj (flattenValues (filterParams r.form)))],
   { r with form := filterParams r.form })

/-! Section: Delivery queue, worker and public entry points

`bodyChannel`, the `waitGroup` counter, the stderr diagnostics and the POST
attempts are the observable state; `push`, `post` and the worker loop body
are explicit state transformers on it. -/

/-- Observable reporter state: the buffered channel contents, the
`waitGroup` pending-count, the bodies POSTed to the endpoint so far, and the
stderr diagnostics emitted so far. -/
structure RState where
  channel : List Json
  pending : Nat
  posts : List Json
  log : List String

/-- Outcome of one `http.Post` call: a transport error, or a response with
its status code and status line. -/
inductive PostResult where
  | netErr : String → PostResult
  | resp : Nat → String → PostResult

/-- Queue the given JSON body to be POSTed to Rollbar (`push`): when the
channel holds fewer than `Buffer` items, add to the wait group and send;
otherwise only write the buffer-full diagnostic. -/
def push (Buffer : Nat) (body : Json) (s : RState) : RState :=
  if s.channel.length < Buffer then
    { s with pending := s.pending + 1, channel := s.channel ++ [body] }
  else
    { s with log := s.log ++ ["buffer full, dropping error on the floor"] }

/-- POST the given JSON body to Rollbar synchronously (`post`), given the
`Token` global as read at this call and the transport outcome `result`.  An
empty token is diagnosed and nothing is sent; otherwise the body is POSTed
and a failure or non-200 status only adds a diagnostic.  (`json.Marshal`
cannot fail on these map/string/int trees, so its error branch is vacuous.) -/
def post (token : String) (result : PostResult) (body : Json) (s : RState) :
    RState :=
  if token.length = 0 then
    { s with log := s.log ++ ["empty token"] }
  else
    let s' := { s with posts := s.posts ++ [body] }
    match result with
    | .netErr e => { s' with log := s'.log ++ ["POST failed: " ++ e] }
    | .resp code status =>
      if code ≠ 200 then
        { s' with log := s'.log ++ ["received response: " ++ status] }
      else s'

/-- One iteration of the background worker (`for body := range bodyChannel`):
receive the oldest body, run `post` on it, then `waitGroup.Done()`. -/
def workerStep (token : String) (result : PostResult) (s : RState) : RState :=
  match s.channel with
  | [] => s
  | body :: rest =>
    let s' := post token result body { s with channel := rest }
    { s' with pending := s'.pending - 1 }

/-- The report body `Message` enqueues: the envelope built with the full
message text as title, with the message inner-body assigned into `data`. -/
def messageReport (cfg : Config) (level msg : String) : Json :=
  dataSet (buildBody cfg level msg) "body" (messageBody msg)

/-- The report body `ErrorWithStackSkip` enqueues: the envelope built with
the full error text as title, with the error inner-body and fingerprint
assigned into `data`. -/
def errorReport (cfg : Config) (level : String) (err : GoError)
    (stack : List Frame) : Json :=
  dataSet (dataSet (buildBody cfg level err.message) "body"
    (errorBody err stack).1) "fingerprint" (.str (errorBody err stack).2)

/-- Function `Message`: build the report with the full message as title and push. -/
def Message (cfg : Config) (Buffer : Nat) (level msg : String) (s : RState) :
    RState :=
  push Buffer (messageReport cfg level msg) s

/-- Function `ErrorWithStackSkip`: build the error report and push.  The stack that
`BuildStack(3 + skip)` captures at runtime is an explicit input. -/
def ErrorWithStackSkip (cfg : Config) (Buffer : Nat) (level : String)
    (err : GoError) (stack : List Frame) (s : RState) : RState :=
  push Buffer (errorReport cfg level err stack) s

/-- Function `RequestErrorWithStackSkip`: like `ErrorWithStackSkip` but additionally
attaches the captured request context; returns the new reporter state and
the caller-visible request after the call (its `Form` now filtered). -/
def RequestErrorWithStackSkip (cfg : Config) (Buffer : Nat) (level : String)
    (r : Request) (err : GoError) (stack : List Frame) (s : RState) :
    RState × Request :=
  let rq := errorRequest r
  (push Buffer (dataSet (errorReport cfg level err stack) "request" rq.1) s,
   rq.2)

/-- The title field of a report. -/
def titleOf (report : Json) : Option String :=
  jstr (jget' (jget report "data") "title")

/-- The level field of a report. -/
def levelOf (report : Json) : Option String :=
  jstr (jget' (jget report "data") "level")

/-- The access_token field of a report. -/
def accessTokenOf (report : Json) : Option String :=
  jstr (jget report "access_token")

/-- The message inner-body text of a message report. -/
def messageTextOf (report : Json) : Option String :=
  jstr (jget' (jget' (jget' (jget report "data") "body") "message") "body")

/-- The exception message of an error report. -/
def exceptionMessageOf (report : Json) : Option String :=
  jstr (jget' (jget' (jget' (jget' (jget report "data") "body") "trace")
    "exception") "message")

end Rollbar

namespace Rollbar

/-! Section: Helper lemmas -/

/-- A string has length zero exactly when it is empty. -/
theorem string_length_zero_iff (s : String) : s.length = 0 ↔ s = "" := by
  constructor
  · intro h
    cases s with
    | mk d =>
      cases d with
      | nil => decide
      | cons a t => simp [String.length] at h
  · intro h
    subst h
    decide

/-- Function `post` touches only the POST list and the log, never the channel or the
pending-count. -/
theorem post_preserves (token : String) (result : PostResult) (body : Json)
    (s : RState) :
    (post token result body s).channel = s.channel ∧
    (post token result body s).pending = s.pending := by
  unfold post
  split
  · exact ⟨rfl, rfl⟩
  · cases result with
    | netErr e => exact ⟨rfl, rfl⟩
    | resp code status =>
      dsimp only
      split <;> exact ⟨rfl, rfl⟩

/-! Section: C1: enqueue below capacity appends and counts; at capacity it only
logs -/

/-- C1: when the queue's occupancy is strictly below `Buffer`, `push`
appends the report to the channel and increments the pending-count, leaving
the POST list and log alone; when occupancy has reached `Buffer`, `push`
leaves channel, pending-count and POST list unchanged and only appends the
buffer-full diagnostic, so the report is dropped. -/
theorem push_boundary (Buffer : Nat) (body : Json) (s : RState) :
    (s.channel.length < Buffer →
      push Buffer body s =
        { s with pending := s.pending + 1, channel := s.channel ++ [body] }) ∧
    (Buffer ≤ s.channel.length →
      push Buffer body s =
        { s with log := s.log ++ ["buffer full, dropping error on the floor"] }) := by
  constructor
  · intro h
    unfold push
    rw [if_pos h]
  · intro h
    unfold push
    rw [if_neg (Nat.not_lt.mpr h)]

/-- C1 witness: a queue of capacity 1 accepts one report from empty and
rejects the next, concretely. -/
theorem push_boundary_witness :
    (push 1 (.str "b") ⟨[], 0, [], []⟩ =
      { RState.mk [] 0 [] [] with pending := 0 + 1, channel := [] ++ [.str "b"] }) ∧
    (push 1 (.str "c") ⟨[.str "b"], 1, [], []⟩ =
      { RState.mk [.str "b"] 1 [] [] with
          log := [] ++ ["buffer full, dropping error on the floor"] }) :=
  ⟨(push_boundary 1 (.str "b") ⟨[], 0, [], []⟩).1 (by decide),
   (push_boundary 1 (.str "c") ⟨[.str "b"], 1, [], []⟩).2 (by decide)⟩

/-! Section: C6: empty token at delivery time discards without a POST; the
pending-count drops by one for every dequeued report -/

/-- C6: for a dequeued report, when the `Token` global read at delivery time
is empty the worker appends the empty-token diagnostic and discards the
report — no POST attempt is recorded; and for every dequeued report, whatever
the token and transport outcome, the pending-count decreases by exactly one. -/
theorem worker_empty_token (token : String) (result : PostResult) (s : RState)
    (body : Json) (rest : List Json) (h : s.channel = body :: rest) :
    (token = "" →
      workerStep token result s =
        { s with channel := rest, pending := s.pending - 1,
                 log := s.log ++ ["empty token"] }) ∧
    (workerStep token result s).channel = rest ∧
    (1 ≤ s.pending → (workerStep token result s).pending + 1 = s.pending) := by
  obtain ⟨ch, p, po, lo⟩ := s
  obtain rfl : ch = body :: rest := h
  refine ⟨?_, ?_, ?_⟩
  · intro ht
    subst ht
    simp [workerStep, post]
  · show (post token result body ⟨rest, p, po, lo⟩).channel = rest
    exact (post_preserves token result body ⟨rest, p, po, lo⟩).1
  · intro hp
    show (post token result body ⟨rest, p, po, lo⟩).pending - 1 + 1 = p
    rw [(post_preserves token result body ⟨rest, p, po, lo⟩).2]
    show p - 1 + 1 = p
    have hp' : 1 ≤ p := hp
    omega

/-- C6 witness: one queued report, empty token — the worker discards it with
a diagnostic and the pending-count returns to zero. -/
theorem worker_empty_token_witness :
    (("" : String) = "" →
      workerStep "" (.resp 200 "200 OK") ⟨[.str "b"], 1, [], []⟩ =
        { RState.mk [.str "b"] 1 [] [] with
            channel := [], pending := 1 - 1, log := [] ++ ["empty token"] }) ∧
    (workerStep "" (.resp 200 "200 OK") ⟨[.str "b"], 1, [], []⟩).channel = [] ∧
    (1 ≤ 1 →
      (workerStep "" (.resp 200 "200 OK") ⟨[.str "b"], 1, [], []⟩).pending + 1 = 1) :=
  worker_empty_token "" (.resp 200 "200 OK") ⟨[.str "b"], 1, [], []⟩
    (.str "b") [] rfl

/-! Section: C10: the payload token is read at build time, the discard decision at
delivery time -/

/-- C10: the `access_token` field of a report is the `Token` value read when
`buildBody` ran, while `post` decides the empty-token discard from the
`Token` value read at delivery time: with any non-empty token at delivery
the body — including a stale empty `access_token` — is POSTed verbatim, and
with an empty token at delivery nothing is POSTed. -/
theorem token_read_at_build_vs_delivery (cfg : Config)
    (tokenPost level title : String) (result : PostResult) (s : RState) :
    accessTokenOf (buildBody cfg level title) = some cfg.token ∧
    (tokenPost ≠ "" →
      (post tokenPost result (buildBody cfg level title) s).posts =
        s.posts ++ [buildBody cfg level title]) ∧
    (tokenPost = "" →
      (post tokenPost result (buildBody cfg level title) s).posts = s.posts) := by
  refine ⟨rfl, ?_, ?_⟩
  · intro h
    have hlen : tokenPost.length ≠ 0 := fun hz =>
      h ((string_length_zero_iff tokenPost).mp hz)
    unfold post
    rw [if_neg hlen]
    cases result with
    | netErr e => rfl
    | resp code status =>
      dsimp only
      split <;> rfl
  · intro h
    subst h
    unfold post
    rw [if_pos (by decide : ("" : String).length = 0)]

/-- C10 witness: a report built while `Token` was `""` is still POSTed — with
its empty `access_token` — once `Token` is `"secret"` at delivery time. -/
theorem token_read_at_build_vs_delivery_witness :
    accessTokenOf (buildBody ⟨"", "development", 0, "linux", "h"⟩ "info" "x") =
      some ("" : String) ∧
    (("secret" : String) ≠ "" →
      (post "secret" (.resp 200 "200 OK")
          (buildBody ⟨"", "development", 0, "linux", "h"⟩ "info" "x")
          ⟨[], 0, [], []⟩).posts =
        [] ++ [buildBody ⟨"", "development", 0, "linux", "h"⟩ "info" "x"]) ∧
    (("secret" : String) = "" →
      (post "secret" (.resp 200 "200 OK")
          (buildBody ⟨"", "development", 0, "linux", "h"⟩ "info" "x")
          ⟨[], 0, [], []⟩).posts = []) :=
  token_read_at_build_vs_delivery ⟨"", "development", 0, "linux", "h"⟩
    "secret" "info" "x" (.resp 200 "200 OK") ⟨[], 0, [], []⟩

/-! Section: C2: report titles carry the full message text -/

/-- C2 counterexample: `Message("info", "hello\nworld")` enqueues a report
whose title is the whole string `"hello\nworld"`, not the first line
`"hello"` the claim predicts. -/
theorem message_title_cex :
    titleOf (messageReport ⟨"t", "development", 0, "linux", "h"⟩ "info"
      "hello\nworld") ≠ some "hello" ∧
    titleOf (messageReport ⟨"t", "development", 0, "linux", "h"⟩ "info"
      "hello\nworld") = some "hello\nworld" := by
  exact ⟨by decide, by decide⟩

/-- C2 amended: the report's title is the full original text, newline
included — `buildBody` receives the unsplit message or error text — while
the message body and the exception message also carry the full text; in
particular `Message("info", "hello\nworld")` yields title `"hello\nworld"`. -/
theorem report_title_full_text :
    (∀ (cfg : Config) (level msg : String),
      titleOf (messageReport cfg level msg) = some msg ∧
      messageTextOf (messageReport cfg level msg) = some msg ∧
      levelOf (messageReport cfg level msg) = some level) ∧
    (∀ (cfg : Config) (level : String) (err : GoError) (stack : List Frame),
      titleOf (errorReport cfg level err stack) = some err.message ∧
      exceptionMessageOf (errorReport cfg level err stack) =
        some err.message) ∧
    titleOf (messageReport ⟨"t", "development", 0, "linux", "h"⟩ "info"
      "hello\nworld") = some "hello\nworld" := by
  refine ⟨fun cfg level msg => ⟨rfl, rfl, rfl⟩,
          fun cfg level err stack => ⟨rfl, rfl⟩, by decide⟩

/-! Section: C3: redaction is case-sensitive with the default pattern -/

/-- Looking a key up after `filterParams`: matched keys now hold
`[FILTERED]`, unmatched keys keep their value sequence. -/
theorem filterParams_lookup (values : List (String × List String))
    (k : String) (vs : List String) (h : lookupVals k values = some vs) :
    lookupVals k (filterParams values) =
      some (if filterFieldsMatch k then [FILTERED] else vs) := by
  induction values with
  | nil => simp [lookupVals] at h
  | cons kv rest ih =>
    obtain ⟨k', vs'⟩ := kv
    simp only [filterParams, List.map_cons]
    by_cases hm : filterFieldsMatch k' = true
    all_goals by_cases hk : k' = k
    · subst hk
      simp only [lookupVals, if_pos rfl] at h
      obtain rfl : vs' = vs := Option.some.inj h
      rw [if_pos hm]
      simp [lookupVals, hm]
    · simp only [lookupVals, if_neg hk] at h
      rw [if_pos hm]
      simp only [lookupVals, if_neg hk]
      exact ih h
    · subst hk
      simp only [lookupVals, if_pos rfl] at h
      obtain rfl : vs' = vs := Option.some.inj h
      rw [if_neg hm]
      simp [lookupVals, hm]
    · simp only [lookupVals, if_neg hk] at h
      rw [if_neg hm]
      simp only [lookupVals, if_neg hk]
      exact ih h

/-- C3 counterexample: the default `FilterFields` pattern is case-sensitive,
so the mixed-case key `"Secret"` is not redacted, contradicting the claim
that it becomes `["[FILTERED]"]`. -/
theorem filterParams_case_cex :
    filterParams [("Secret", ["x"])] = [("Secret", ["x"])] ∧
    filterParams [("Secret", ["x"])] ≠ [("Secret", [FILTERED])] := by
  exact ⟨by decide, by decide⟩

/-- C3 amended: `filterParams` replaces the whole value sequence of every
key the (case-sensitive) default pattern matches with `["[FILTERED]"]` and
leaves other keys' sequences unchanged; `{"password": ["abc"], "username":
["bob"]}` becomes `{"password": ["[FILTERED]"], "username": ["bob"]}`, the
lowercase key `"secret"` is matched, but the mixed-case key `"Secret"` is
not. -/
theorem filterParams_spec :
    (∀ (values : List (String × List String)) (k : String) (vs : List String),
      lookupVals k values = some vs →
      lookupVals k (filterParams values) =
        some (if filterFieldsMatch k then [FILTERED] else vs)) ∧
    filterParams [("password", ["abc"]), ("username", ["bob"])] =
      [("password", ["[FILTERED]"]), ("username", ["bob"])] ∧
    filterFieldsMatch "secret" = true ∧
    filterFieldsMatch "Secret" = false := by
  exact ⟨filterParams_lookup, by decide, by decide, by decide⟩

/-- C3 witness: the lookup clause evaluated on the claim's own example
mapping, at the matched key `"password"` and the unmatched key
`"username"`. -/
theorem filterParams_spec_witness :
    lookupVals "password"
        (filterParams [("password", ["abc"]), ("username", ["bob"])]) =
      some (if filterFieldsMatch "password" then [FILTERED] else ["abc"]) ∧
    lookupVals "username"
        (filterParams [("password", ["abc"]), ("username", ["bob"])]) =
      some (if filterFieldsMatch "username" then [FILTERED] else ["bob"]) :=
  ⟨filterParams_spec.1 [("password", ["abc"]), ("username", ["bob"])]
      "password" ["abc"] (by decide),
   filterParams_spec.1 [("password", ["abc"]), ("username", ["bob"])]
      "username" ["bob"] (by decide)⟩

/-! Section: C4: path normalization is not idempotent in general -/

/-- When `pat` is a prefix of `t`, its first occurrence is at index 0. -/
theorem firstIdx_of_isPrefixOf (pat t : List Char) (h : pat.isPrefixOf t = true) :
    firstIdx pat t = some 0 := by
  cases t with
  | nil => simp [firstIdx, h]
  | cons c rest => simp [firstIdx, h]

/-- The first occurrence reported by `firstIdx` really is an occurrence:
`pat` is a prefix of the suffix starting there. -/
theorem firstIdx_isPrefixOf_drop (pat : List Char) :
    ∀ (s : List Char) (i : Nat), firstIdx pat s = some i →
      pat.isPrefixOf (s.drop i) = true := by
  intro s
  induction s with
  | nil =>
    intro i h
    rw [firstIdx] at h
    by_cases hp : pat.isPrefixOf ([] : List Char) = true
    · rw [if_pos hp] at h
      obtain rfl : 0 = i := Option.some.inj h
      simpa using hp
    · rw [if_neg hp] at h
      exact absurd h (by simp)
  | cons c rest ih =>
    intro i h
    rw [firstIdx] at h
    by_cases hp : pat.isPrefixOf (c :: rest) = true
    · rw [if_pos hp] at h
      obtain rfl : 0 = i := Option.some.inj h
      simpa using hp
    · rw [if_neg hp] at h
      obtain ⟨j, hj, rfl⟩ := Option.map_eq_some'.mp h
      simpa using ih j hj

/-- A pattern with no occurrence in `s` has none in any suffix of `s`. -/
theorem firstIdx_drop_of_none (pat : List Char) :
    ∀ (s : List Char) (n : Nat), firstIdx pat s = none →
      firstIdx pat (s.drop n) = none := by
  intro s
  induction s with
  | nil => intro n h; simpa using h
  | cons c rest ih =>
    intro n h
    rw [firstIdx] at h
    by_cases hp : pat.isPrefixOf (c :: rest) = true
    · rw [if_pos hp] at h; exact absurd h (by simp)
    · rw [if_neg hp] at h
      have hrest : firstIdx pat rest = none := by
        cases hfi : firstIdx pat rest with
        | none => rfl
        | some j => rw [hfi] at h; exact absurd h (by simp)
      cases n with
      | zero =>
        simpa [firstIdx, hp] using hrest
      | succ m =>
        simpa using ih m hrest

/-- The pattern loop of `shortenFilePath` always returns a suffix of its
input. -/
theorem patternLoop_isDrop (ps : List (List Char)) (s : List Char) :
    ∃ n, patternLoop ps s = s.drop n := by
  induction ps with
  | nil => exact ⟨0, by simp [patternLoop]⟩
  | cons p rest ih =>
    cases hfi : firstIdx p s with
    | some i => exact ⟨i, by simp [patternLoop, hfi]⟩
    | none =>
      obtain ⟨n, hn⟩ := ih
      exact ⟨n, by simp [patternLoop, hfi, hn]⟩

/-- The pattern loop of `shortenFilePath` is idempotent: the winning pattern
sits at the front of the result and no earlier-listed pattern occurs in it. -/
theorem patternLoop_idem (ps : List (List Char)) :
    ∀ s : List Char, patternLoop ps (patternLoop ps s) = patternLoop ps s := by
  induction ps with
  | nil => intro s; rfl
  | cons p rest ih =>
    intro s
    cases hfi : firstIdx p s with
    | some i =>
      have hpre : p.isPrefixOf (s.drop i) = true :=
        firstIdx_isPrefixOf_drop p s i hfi
      simp [patternLoop, hfi, firstIdx_of_isPrefixOf p (s.drop i) hpre]
    | none =>
      obtain ⟨n, hn⟩ := patternLoop_isDrop rest s
      have hnone : firstIdx p (patternLoop rest s) = none := by
        rw [hn]; exact firstIdx_drop_of_none p s n hfi
      simp [patternLoop, hfi, hnone, ih]

/-- C4 counterexample: `shortenFilePath` applied to
`"/src/pkg/github.com/x"` yields `"pkg/github.com/x"`, and a second
application shortens further to `"github.com/x"`, so one concrete input
refutes idempotence. -/
theorem shortenFilePath_not_idempotent :
    shortenFilePath "/src/pkg/github.com/x" = "pkg/github.com/x" ∧
    shortenFilePath (shortenFilePath "/src/pkg/github.com/x") =
      "github.com/x" ∧
    shortenFilePath (shortenFilePath "/src/pkg/github.com/x") ≠
      shortenFilePath "/src/pkg/github.com/x" := by
  exact ⟨by decide, by decide, by decide⟩

/-- C4 amended: applying `shortenFilePath` twice yields the same result as
applying it once for every input in which the standard-library marker
`"/src/pkg/"` does not occur; the marker branch keeps the `"pkg/"` suffix,
which a second pass may shorten further. -/
theorem shortenFilePath_idem_without_marker (s : String)
    (h : firstIdx "/src/pkg/".data s.data = none) :
    shortenFilePath (shortenFilePath s) = shortenFilePath s := by
  have hlist : shortenList (shortenList s.data) = shortenList s.data := by
    obtain ⟨n, hn⟩ := patternLoop_isDrop knownFilePathPatterns s.data
    have hnone : firstIdx "/src/pkg/".data
        (patternLoop knownFilePathPatterns s.data) = none := by
      rw [hn]
      exact firstIdx_drop_of_none "/src/pkg/".data s.data n h
    unfold shortenList
    simp only [h, hnone]
    exact patternLoop_idem knownFilePathPatterns s.data
  exact congrArg String.mk hlist

/-- C4 witness: idempotence evaluated on the hosting-prefix example from the
test suite, which contains no `"/src/pkg/"` marker. -/
theorem shortenFilePath_idem_witness :
    shortenFilePath (shortenFilePath "/home/foo/go/src/github.com/stvp/rollbar.go") =
      shortenFilePath "/home/foo/go/src/github.com/stvp/rollbar.go" :=
  shortenFilePath_idem_without_marker "/home/foo/go/src/github.com/stvp/rollbar.go"
    (by decide)

/-! Section: C5: the three-way case analysis of `shortenFilePath` -/

/-- Loop step: a pattern that occurs wins immediately. -/
theorem patternLoop_cons_some (p : List Char) (ps : List (List Char))
    (s : List Char) (idx : Nat) (h : firstIdx p s = some idx) :
    patternLoop (p :: ps) s = s.drop idx := by
  unfold patternLoop
  rw [h]

/-- Loop step: a pattern that does not occur is skipped. -/
theorem patternLoop_cons_none (p : List Char) (ps : List (List Char))
    (s : List Char) (h : firstIdx p s = none) :
    patternLoop (p :: ps) s = patternLoop ps s := by
  show (match firstIdx p s with
        | some idx => s.drop idx
        | none => patternLoop ps s) = patternLoop ps s
  rw [h]

/-- Without the standard-library marker, `shortenList` is the pattern loop. -/
theorem shortenList_of_no_marker (l : List Char)
    (h : firstIdx "/src/pkg/".data l = none) :
    shortenList l = patternLoop knownFilePathPatterns l := by
  unfold shortenList
  rw [h]

/-- C5: if `"/src/pkg/"` occurs, the path is cut to the suffix from five
characters past the marker's start — so the result keeps the `"pkg/"`
filesystem-layout suffix; otherwise the first hosting pattern (in the fixed
order `github.com/`, `code.google.com/`, `bitbucket.org/`, `launchpad.net/`)
that occurs determines the cut, keeping the suffix from that marker; with no
marker at all the path is unchanged; and the four documented examples
evaluate as stated. -/
theorem shortenFilePath_cases :
    (∀ (s : String) (idx : Nat),
      firstIdx "/src/pkg/".data s.data = some idx →
      shortenFilePath s = String.mk (s.data.drop (idx + 5)) ∧
      "pkg/".data.isPrefixOf (shortenFilePath s).data = true) ∧
    (∀ (s : String) (idx : Nat),
      firstIdx "/src/pkg/".data s.data = none →
      firstIdx "github.com/".data s.data = some idx →
      shortenFilePath s = String.mk (s.data.drop idx)) ∧
    (∀ (s : String) (idx : Nat),
      firstIdx "/src/pkg/".data s.data = none →
      firstIdx "github.com/".data s.data = none →
      firstIdx "code.google.com/".data s.data = some idx →
      shortenFilePath s = String.mk (s.data.drop idx)) ∧
    (∀ (s : String) (idx : Nat),
      firstIdx "/src/pkg/".data s.data = none →
      firstIdx "github.com/".data s.data = none →
      firstIdx "code.google.com/".data s.data = none →
      firstIdx "bitbucket.org/".data s.data = some idx →
      shortenFilePath s = String.mk (s.data.drop idx)) ∧
    (∀ (s : String) (idx : Nat),
      firstIdx "/src/pkg/".data s.data = none →
      firstIdx "github.com/".data s.data = none →
      firstIdx "code.google.com/".data s.data = none →
      firstIdx "bitbucket.org/".data s.data = none →
      firstIdx "launchpad.net/".data s.data = some idx →
      shortenFilePath s = String.mk (s.data.drop idx)) ∧
    (∀ s : String,
      firstIdx "/src/pkg/".data s.data = none →
      firstIdx "github.com/".data s.data = none →
      firstIdx "code.google.com/".data s.data = none →
      firstIdx "bitbucket.org/".data s.data = none →
      firstIdx "launchpad.net/".data s.data = none →
      shortenFilePath s = s) ∧
    shortenFilePath "/usr/local/go/src/pkg/runtime/proc.c" =
      "pkg/runtime/proc.c" ∧
    shortenFilePath "/home/foo/go/src/github.com/stvp/rollbar.go" =
      "github.com/stvp/rollbar.go" ∧
    shortenFilePath "foo.go" = "foo.go" ∧
    shortenFilePath "" = "" := by
  refine ⟨?_, ?_, ?_, ?_, ?_, ?_, by decide, by decide, by decide, by decide⟩
  · intro s idx h
    have heq : shortenFilePath s = String.mk (s.data.drop (idx + 5)) := by
      unfold shortenFilePath shortenList
      simp only [h]
    refine ⟨heq, ?_⟩
    rw [heq]
    have hp := firstIdx_isPrefixOf_drop "/src/pkg/".data s.data idx h
    obtain ⟨u, hu⟩ := List.isPrefixOf_iff_prefix.mp hp
    have : s.data.drop (idx + 5) = (s.data.drop idx).drop 5 := by
      rw [List.drop_drop]
    rw [this, ← hu]
    have happ : ("/src/pkg/".data ++ u).drop 5 = "pkg/".data ++ u := by
      rw [List.drop_append_of_le_length (by decide)]
      rfl
    rw [happ]
    exact List.isPrefixOf_iff_prefix.mpr ⟨u, rfl⟩
  · intro s idx h0 h1
    refine congrArg String.mk ?_
    rw [shortenList_of_no_marker s.data h0,
        show knownFilePathPatterns =
          "github.com/".data :: ["code.google.com/".data,
            "bitbucket.org/".data, "launchpad.net/".data] from rfl,
        patternLoop_cons_some _ _ _ _ h1]
  · intro s idx h0 h1 h2
    refine congrArg String.mk ?_
    rw [shortenList_of_no_marker s.data h0,
        show knownFilePathPatterns =
          "github.com/".data :: ["code.google.com/".data,
            "bitbucket.org/".data, "launchpad.net/".data] from rfl,
        patternLoop_cons_none _ _ _ h1, patternLoop_cons_some _ _ _ _ h2]
  · intro s idx h0 h1 h2 h3
    refine congrArg String.mk ?_
    rw [shortenList_of_no_marker s.data h0,
        show knownFilePathPatterns =
          "github.com/".data :: ["code.google.com/".data,
            "bitbucket.org/".data, "launchpad.net/".data] from rfl,
        patternLoop_cons_none _ _ _ h1, patternLoop_cons_none _ _ _ h2,
        patternLoop_cons_some _ _ _ _ h3]
  · intro s idx h0 h1 h2 h3 h4
    refine congrArg String.mk ?_
    rw [shortenList_of_no_marker s.data h0,
        show knownFilePathPatterns =
          "github.com/".data :: ["code.google.com/".data,
            "bitbucket.org/".data, "launchpad.net/".data] from rfl,
        patternLoop_cons_none _ _ _ h1, patternLoop_cons_none _ _ _ h2,
        patternLoop_cons_none _ _ _ h3, patternLoop_cons_some _ _ _ _ h4]
  · intro s h0 h1 h2 h3 h4
    have hl : shortenList s.data = s.data := by
      rw [shortenList_of_no_marker s.data h0,
          show knownFilePathPatterns =
            "github.com/".data :: ["code.google.com/".data,
              "bitbucket.org/".data, "launchpad.net/".data] from rfl,
          patternLoop_cons_none _ _ _ h1, patternLoop_cons_none _ _ _ h2,
          patternLoop_cons_none _ _ _ h3, patternLoop_cons_none _ _ _ h4]
      rfl
    show String.mk (shortenList s.data) = s
    rw [hl]

/-- C5 witness: the marker clause applied to the documented standard-library
path, whose marker sits at index 13, and the hosting clause applied to the
documented `github.com` path, whose marker sits at index 17. -/
theorem shortenFilePath_cases_witness :
    shortenFilePath "/usr/local/go/src/pkg/runtime/proc.c" =
      String.mk ("/usr/local/go/src/pkg/runtime/proc.c".data.drop (13 + 5)) ∧
    shortenFilePath "/home/foo/go/src/github.com/stvp/rollbar.go" =
      String.mk ("/home/foo/go/src/github.com/stvp/rollbar.go".data.drop 17) :=
  ⟨(shortenFilePath_cases.1 "/usr/local/go/src/pkg/runtime/proc.c" 13
      (by decide)).1,
   shortenFilePath_cases.2.1 "/home/foo/go/src/github.com/stvp/rollbar.go" 17
      (by decide) (by decide)⟩

/-! Section: C7: exception-class labels -/

/-- C7: `errorClass` labels an error with empty dynamic type name
`"panic"`; labels a generic `*errors.errorString` with the braced lowercase
hexadecimal adler32 checksum of its message, so two generic errors with the
same message text get the same label; and otherwise uses the concrete type
name with a leading `"*"` stripped. -/
theorem errorClass_spec (err : GoError) :
    (err.typeName = "" → errorClass err = "panic") ∧
    (err.typeName = "*errors.errorString" →
      errorClass err = "\x7b" ++ hexStr (adler32 (strBytes err.message)) ++ "\x7d") ∧
    (err.typeName ≠ "" → err.typeName ≠ "*errors.errorString" →
      errorClass err = trimPrefix "*" err.typeName) ∧
    (∀ e₂ : GoError, err.typeName = "*errors.errorString" →
      e₂.typeName = "*errors.errorString" → err.message = e₂.message →
      errorClass err = errorClass e₂) := by
  refine ⟨?_, ?_, ?_, ?_⟩
  · intro h
    unfold errorClass
    rw [h, if_pos rfl]
  · intro h
    unfold errorClass
    rw [h, if_neg (by decide : ¬("*errors.errorString" : String) = ""),
        if_pos rfl]
  · intro h1 h2
    unfold errorClass
    rw [if_neg h1, if_neg h2]
  · intro e₂ h1 h2 hm
    unfold errorClass
    rw [h1, h2, hm]

/-- C7 witness: two distinct generic errors with the message `"boom"` both
get the braced checksum label, and a typed error gets its type name with the
pointer sigil stripped. -/
theorem errorClass_spec_witness :
    errorClass ⟨"*errors.errorString", "boom"⟩ =
      "\x7b" ++ hexStr (adler32 (strBytes "boom")) ++ "\x7d" ∧
    errorClass ⟨"*errors.errorString", "boom"⟩ =
      errorClass ⟨"*errors.errorString", "boom"⟩ ∧
    errorClass ⟨"*rollbar.ErrHttpError", "x"⟩ =
      trimPrefix "*" "*rollbar.ErrHttpError" :=
  ⟨(errorClass_spec ⟨"*errors.errorString", "boom"⟩).2.1 rfl,
   (errorClass_spec ⟨"*errors.errorString", "boom"⟩).2.2.2
     ⟨"*errors.errorString", "boom"⟩ rfl rfl rfl,
   (errorClass_spec ⟨"*rollbar.ErrHttpError", "x"⟩).2.2.1 (by decide)
     (by decide)⟩

/-! Section: C8: fingerprints are determined by frame content, but a line change
can collide -/

/-- C8 counterexample: two single-frame stacks identical except for the line
number — 213 versus 132 — produce the same adler32 fingerprint, so changing
a single frame's line number does not always change the fingerprint. -/
theorem fingerprint_line_collision :
    fingerprint [⟨"f", "m", 213⟩] = fingerprint [⟨"f", "m", 132⟩] ∧
    (213 : Int) ≠ 132 := by
  exact ⟨by decide, by decide⟩

/-- C8 amended: the fingerprint is a function of the frame sequence alone —
stacks with the same filename/function/line triples in the same order get
identical fingerprints — and changing a single frame's line number changes
the fingerprint except when the 32-bit checksum collides (as it does for
lines 213 and 132); e.g. lines 10 and 11 give different fingerprints. -/
theorem fingerprint_determined_by_frames :
    (∀ s₁ s₂ : List Frame,
      s₁.map (fun f => (f.filename, f.method, f.line)) =
        s₂.map (fun f => (f.filename, f.method, f.line)) →
      fingerprint s₁ = fingerprint s₂) ∧
    fingerprint [⟨"a", "b", 10⟩] ≠ fingerprint [⟨"a", "b", 11⟩] := by
  constructor
  · intro s₁ s₂ h
    have hr : s₁.map frameRepr = s₂.map frameRepr := by
      have h1 : s₁.map frameRepr =
          (s₁.map (fun f => (f.filename, f.method, f.line))).map
            (fun t => t.1 ++ t.2.1 ++ toString t.2.2) := by
        rw [List.map_map]
        rfl
      have h2 : s₂.map frameRepr =
          (s₂.map (fun f => (f.filename, f.method, f.line))).map
            (fun t => t.1 ++ t.2.1 ++ toString t.2.2) := by
        rw [List.map_map]
        rfl
      rw [h1, h2, h]
    unfold fingerprint
    rw [hr]
  · decide

/-- C8 witness: the frame-content clause applied to two syntactically equal
one-frame stacks. -/
theorem fingerprint_determined_by_frames_witness :
    fingerprint [⟨"stack_test.go", "rollbar.TestBuildStack", 8⟩] =
      fingerprint [⟨"stack_test.go", "rollbar.TestBuildStack", 8⟩] :=
  fingerprint_determined_by_frames.1
    [⟨"stack_test.go", "rollbar.TestBuildStack", 8⟩]
    [⟨"stack_test.go", "rollbar.TestBuildStack", 8⟩] rfl

/-! Section: C9: redaction mutates the caller's form -/

/-- C9: after `RequestErrorWithStackSkip` the caller-visible request carries
`filterParams` of its original form — the redaction happened in place on the
shared `Form` map — so every sensitive key's value sequence now reads
`["[FILTERED]"]`; and the report's `"POST"` field is built from that same
mapping. -/
theorem requestError_mutates_form (cfg : Config) (Buffer : Nat)
    (level : String) (r : Request) (err : GoError) (stack : List Frame)
    (s : RState) :
    (RequestErrorWithStackSkip cfg Buffer level r err stack s).2.form =
      filterParams r.form ∧
    (∀ (k : String) (vs : List String),
      lookupVals k r.form = some vs → filterFieldsMatch k = true →
      lookupVals k
          (RequestErrorWithStackSkip cfg Buffer level r err stack s).2.form =
        some [FILTERED]) ∧
    jget (errorRequest r).1 "POST" =
      some (.obj (flattenValues
        (RequestErrorWithStackSkip cfg Buffer level r err stack s).2.form)) := by
  refine ⟨rfl, ?_, rfl⟩
  intro k vs h hm
  show lookupVals k (filterParams r.form) = some [FILTERED]
  have := filterParams_lookup r.form k vs h
  rw [if_pos hm] at this
  exact this

/-- C9 witness: a request whose form holds `password=abc` comes back from
`RequestErrorWithStackSkip` with the password value sequence replaced by
`["[FILTERED]"]`. -/
theorem requestError_mutates_form_witness :
    lookupVals "password"
        (RequestErrorWithStackSkip ⟨"t", "development", 0, "linux", "h"⟩ 10
          "error" ⟨"http://x/", "POST", [], [], [("password", ["abc"])]⟩
          ⟨"*errors.errorString", "boom"⟩ [] ⟨[], 0, [], []⟩).2.form =
      some [FILTERED] :=
  (requestError_mutates_form ⟨"t", "development", 0, "linux", "h"⟩ 10 "error"
      ⟨"http://x/", "POST", [], [], [("password", ["abc"])]⟩
      ⟨"*errors.errorString", "boom"⟩ [] ⟨[], 0, [], []⟩).2.1
    "password" ["abc"] (by decide) (by decide)

end Rollbar
